import Mathlib

/-!
Verification of the statement-ingestion and normalization core of the
Digitalsov personal-finance ledger (`backend/app/services/normalizer.py`,
`csv_importer.py`, `categorizer.py`, `merchant_canonicalizer.py`,
`pdf_extractor.py`).

The Python code is shallowly embedded:
  * strings are Lean `String`s (ASCII is the intended character range of the
    bank data; Python's Unicode-aware `str.strip`/`str.lower` coincide with
    the ASCII behaviour modelled here);
  * Python `float` values are modelled by exact rationals `ℚ`.  Every float
    the core manipulates is produced by parsing a decimal literal, and every
    property checked below compares two runs of the same arithmetic on the
    same parses, so exact rationals are a faithful value domain;
  * functions that can raise return `Option`, with `none` for the raised
    exception;
  * the SQLAlchemy session is modelled by explicit state passing; the
    `db.commit()` call shows up as an explicit `Bool` in each result.
-/

set_option allowUnsafeReducibility true

attribute [local semireducible] Rat.mul Rat.inv Rat.add Rat.sub Rat.neg Rat.ofScientific

namespace Digitalsov

/-! ## Python string primitives (model of the `str` builtins used by the core) -/

/-- Whitespace characters recognised by Python's `str.strip`/`str.split`
(ASCII range). -/
def isPyWs (c : Char) : Bool :=
  c = ' ' || c = '\t' || c = '\n' || c = '\r' || c = '\x0b' || c = '\x0c'

/-- Model of `str.strip()` on a character list. -/
def stripChars (cs : List Char) : List Char :=
  ((cs.dropWhile isPyWs).reverse.dropWhile isPyWs).reverse

/-- Python `value.strip()`. -/
def pyStrip (s : String) : String := ⟨stripChars s.data⟩

/-- Python `value.lower()` (ASCII case folding). -/
def pyLower (s : String) : String := ⟨s.data.map Char.toLower⟩

/-- Does `pat` occur at the head of `s`?  (helper for the substring test) -/
def headMatch : List Char → List Char → Bool
  | [], _ => true
  | _ :: _, [] => false
  | p :: ps, c :: cs => p = c && headMatch ps cs

/-- Python `pat in s` (substring containment). -/
def hasSub (pat : List Char) : List Char → Bool
  | [] => headMatch pat []
  | c :: cs => headMatch pat (c :: cs) || hasSub pat cs

/-- Python `s.startswith(pre)`. -/
def pyStarts (s pre : String) : Bool := headMatch pre.data s.data

/-- Python `s.endswith(suf)`. -/
def pyEnds (s suf : String) : Bool := headMatch suf.data.reverse s.data.reverse

/-- Case-insensitive literal matcher: consume `pat` (compared through
`Char.toLower`, mirroring `re.IGNORECASE`) from the head of the input and
return the rest. -/
def ciLit : List Char → List Char → Option (List Char)
  | [], cs => some cs
  | _ :: _, [] => none
  | p :: ps, c :: cs => if p.toLower = c.toLower then ciLit ps cs else none

/-! ## Model of the Python `float` constructor

`float(v)` accepts an optionally signed decimal literal with an optional
fraction and an optional exponent.  (The exotic inputs `inf`, `nan` and
underscore separators are outside the model and mapped to `none`; the
importer never feeds them.)  The parsed value is the exact rational the
literal denotes. -/

/-- Numeric value of a digit run. -/
def digitsVal (cs : List Char) : ℕ :=
  cs.foldl (fun a c => a * 10 + (c.toNat - 48)) 0

/-- Exponent suffix of a float literal: `(e|E)(+|-)?digits`, or the empty
rest. Returns the exponent value. -/
def floatExp (cs : List Char) : Option ℤ :=
  match cs with
  | [] => some 0
  | e :: rest =>
    if e = 'e' || e = 'E' then
      let (sgn, rest2) : ℤ × List Char :=
        match rest with
        | '+' :: t => (1, t)
        | '-' :: t => (-1, t)
        | t => (1, t)
      let (ds, rest3) := rest2.span Char.isDigit
      if ds ≠ [] && rest3 = [] then some (sgn * (digitsVal ds : ℤ)) else none
    else none

/-- Model of Python's `float(s)` on decimal literals. -/
def pyFloat (s : String) : Option ℚ :=
  let cs := stripChars s.data
  let (sgn, cs) : ℚ × List Char :=
    match cs with
    | '+' :: t => (1, t)
    | '-' :: t => (-1, t)
    | t => (1, t)
  let (ip, r1) := cs.span Char.isDigit
  let (fp, r2) : List Char × List Char :=
    match r1 with
    | '.' :: t => t.span Char.isDigit
    | _ => ([], r1)
  if ip = [] && fp = [] then none
  else
    match floatExp r2 with
    | none => none
    | some e =>
      let base : ℚ := (digitsVal ip : ℚ) + (digitsVal fp : ℚ) / ((10 : ℚ) ^ fp.length)
      let scaled : ℚ := if 0 ≤ e then base * (10 : ℚ) ^ e.toNat else base / (10 : ℚ) ^ (-e).toNat
      some (sgn * scaled)

/-! ## `parse_amount` (normalizer.py)

European-format detection (`^-?\d{1,3}(\.\d{3})*(,\d{1,2})$`), the
comma-thousands lookahead substitution (`,(?=\d{3}(?:[,.]|$))`) and the final
`float` call, exactly as in the source. -/

/-- Tail of the European regex after the leading digit group:
`(\.\d{3})*(,\d{1,2})$`. -/
def euroGroups : List Char → Bool
  | '.' :: d1 :: d2 :: d3 :: rest =>
    d1.isDigit && d2.isDigit && d3.isDigit && euroGroups rest
  | ',' :: rest =>
    let (ds, r) := rest.span Char.isDigit
    decide (1 ≤ ds.length) && decide (ds.length ≤ 2) && r = []
  | _ => false

/-- Model of `_EUROPEAN_RE.match(v)`: `^-?\d{1,3}(\.\d{3})*(,\d{1,2})$`. -/
def euroMatch (cs : List Char) : Bool :=
  let cs' := match cs with | '-' :: t => t | t => t
  let (ds, rest) := cs'.span Char.isDigit
  decide (1 ≤ ds.length) && decide (ds.length ≤ 3) && euroGroups rest

/-- Is the rest of the input `\d{3}(?:[,.]|$)` (the lookahead of the
comma-thousands substitution)? -/
def commaLookahead : List Char → Bool
  | d1 :: d2 :: d3 :: rest =>
    d1.isDigit && d2.isDigit && d3.isDigit &&
      (match rest with
       | [] => true
       | c :: _ => c = ',' || c = '.')
  | _ => false

/-- Model of `re.sub(r",(?=\d{3}(?:[,.]|$))", "", v)`. -/
def commaSub : List Char → List Char
  | [] => []
  | ',' :: rest => if commaLookahead rest then commaSub rest else ',' :: commaSub rest
  | c :: rest => c :: commaSub rest

/-- Currency symbols stripped by `v.lstrip("$€£¥₹")`. -/
def currencySymbols : List Char := ['$', '€', '£', '¥', '₹']

/-- Model of `parse_amount` from `normalizer.py`; `none` models the raised
`ValueError`. -/
def parse_amount (value : String) : Option ℚ :=
  let v := pyStrip value
  if v = "" then none
  else
    let negative := pyStarts v "(" && pyEnds v ")"
    let cs0 := if negative then (v.data.drop 1).dropLast else v.data
    let cs1 := stripChars (cs0.dropWhile (fun c => currencySymbols.contains c))
    let cs2 := cs1.filter (fun c => c ≠ ' ')
    let cs3 :=
      if euroMatch cs2 then
        (cs2.filter (fun c => c ≠ '.')).map (fun c => if c = ',' then '.' else c)
      else
        (commaSub cs2).map (fun c => if c = ',' then '.' else c)
    (pyFloat ⟨cs3⟩).map (fun amount => if negative then -amount else amount)

/-! ## `parse_split_amount` and `to_cents` (normalizer.py) -/

/-- The zero-equivalent cell values of `parse_split_amount`. -/
def ZERO_SET : List String := ["", "0", "0.0", "0.00", "-0", "-0.0", "-0.00"]

/-- Model of `parse_split_amount` from `normalizer.py`; `none` models the raised
`ValueError`. -/
def parse_split_amount (debit_val credit_val : String) : Option ℚ :=
  let d_str := pyStrip debit_val
  let c_str := pyStrip credit_val
  let debit : Option ℚ :=
    if ZERO_SET.contains d_str then none else (parse_amount d_str).map (fun x => |x|)
  let credit : Option ℚ :=
    if ZERO_SET.contains c_str then none else (parse_amount c_str).map (fun x => |x|)
  match debit, credit with
  | some d, some c => some (c - d)
  | none, some c => some c
  | some d, none => some (-d)
  | none, none => none

/-- Model of `decimal.ROUND_HALF_UP` to an integer: nearest, ties away from zero. -/
def roundHalfUp (x : ℚ) : ℤ :=
  if 0 ≤ x then ⌊x + 1/2⌋ else -⌊-x + 1/2⌋

/-- Model of `to_cents` from `normalizer.py`.  `Decimal(str(amount))` recovers the
exact decimal value of the float, which the `ℚ` model carries directly. -/
def to_cents (amount : ℚ) : ℤ := roundHalfUp (amount * 100)

/-! ## SHA-256 (model of `hashlib.sha256`)

`hashlib` is a collaborator from the Python standard library; it is embedded
as the standard FIPS 180-4 SHA-256 over byte lists, with 32-bit words as
naturals reduced mod `2^32`.  The well-known test vectors for `""` and
`"abc"` are proved below to ground the embedding. -/

def M32 : ℕ := 4294967296

/-- The 32-bit right rotation. -/
def rotr (n x : ℕ) : ℕ := ((x >>> n) ||| (x <<< (32 - n))) % M32

/-- The 32-bit bitwise complement. -/
def not32 (x : ℕ) : ℕ := 4294967295 - x

def ch32 (e f g : ℕ) : ℕ := (e &&& f) ^^^ (not32 e &&& g)

def maj32 (a b c : ℕ) : ℕ := (a &&& b) ^^^ (a &&& c) ^^^ (b &&& c)

def bsig0 (x : ℕ) : ℕ := rotr 2 x ^^^ rotr 13 x ^^^ rotr 22 x

def bsig1 (x : ℕ) : ℕ := rotr 6 x ^^^ rotr 11 x ^^^ rotr 25 x

def ssig0 (x : ℕ) : ℕ := rotr 7 x ^^^ rotr 18 x ^^^ (x >>> 3)

def ssig1 (x : ℕ) : ℕ := rotr 17 x ^^^ rotr 19 x ^^^ (x >>> 10)

/-- SHA-256 round constants. -/
def sha256K : List ℕ :=
  ([[0x428a2f98, 0x71374491, 0xb5c0fbcf, 0xe9b5dba5, 0x3956c25b, 0x59f111f1, 0x923f82a4, 0xab1c5ed5],
    [0xd807aa98, 0x12835b01, 0x243185be, 0x550c7dc3, 0x72be5d74, 0x80deb1fe, 0x9bdc06a7, 0xc19bf174],
    [0xe49b69c1, 0xefbe4786, 0x0fc19dc6, 0x240ca1cc, 0x2de92c6f, 0x4a7484aa, 0x5cb0a9dc, 0x76f988da],
    [0x983e5152, 0xa831c66d, 0xb00327c8, 0xbf597fc7, 0xc6e00bf3, 0xd5a79147, 0x06ca6351, 0x14292967],
    [0x27b70a85, 0x2e1b2138, 0x4d2c6dfc, 0x53380d13, 0x650a7354, 0x766a0abb, 0x81c2c92e, 0x92722c85],
    [0xa2bfe8a1, 0xa81a664b, 0xc24b8b70, 0xc76c51a3, 0xd192e819, 0xd6990624, 0xf40e3585, 0x106aa070],
    [0x19a4c116, 0x1e376c08, 0x2748774c, 0x34b0bcb5, 0x391c0cb3, 0x4ed8aa4a, 0x5b9cca4f, 0x682e6ff3],
    [0x748f82ee, 0x78a5636f, 0x84c87814, 0x8cc70208, 0x90befffa, 0xa4506ceb, 0xbef9a3f7, 0xc67178f2]]
   : List (List ℕ)).flatten

/-- SHA-256 initial hash value. -/
def sha256H0 : List ℕ :=
  [0x6a09e667, 0xbb67ae85, 0x3c6ef372, 0xa54ff53a, 0x510e527f, 0x9b05688c, 0x1f83d9ab, 0x5be0cd19]

/-- Big-endian 8-byte encoding of the bit length. -/
def beBytes8 (n : ℕ) : List ℕ :=
  [7, 6, 5, 4, 3, 2, 1, 0].map (fun k => (n >>> (8 * k)) % 256)

/-- FIPS 180-4 message padding. -/
def shaPad (msg : List ℕ) : List ℕ :=
  let L := msg.length
  msg ++ [0x80] ++ List.replicate ((119 - L % 64) % 64) 0 ++ beBytes8 (L * 8)

/-- Split a byte list into 64-byte blocks (fuelled; the fuel is the length,
so every block is reached). -/
def blocks64 : ℕ → List ℕ → List (List ℕ)
  | 0, _ => []
  | _, [] => []
  | fuel + 1, l => l.take 64 :: blocks64 fuel (l.drop 64)

/-- Big-endian 4-byte words of a block. -/
def beWords : List ℕ → List ℕ
  | b1 :: b2 :: b3 :: b4 :: rest => (((b1 * 256 + b2) * 256 + b3) * 256 + b4) :: beWords rest
  | _ => []

/-- Message-schedule extension: append `k` further words. -/
def extendW : ℕ → List ℕ → List ℕ
  | 0, w => w
  | k + 1, w =>
    let i := w.length
    let nw := (w.getD (i - 16) 0 + ssig0 (w.getD (i - 15) 0) + w.getD (i - 7) 0 +
               ssig1 (w.getD (i - 2) 0)) % M32
    extendW k (w ++ [nw])

/-- One compression round. -/
def shaRound (st : List ℕ) (kw : ℕ × ℕ) : List ℕ :=
  match st with
  | [a, b, c, d, e, f, g, h] =>
    let t1 := (h + bsig1 e + ch32 e f g + kw.1 + kw.2) % M32
    let t2 := (bsig0 a + maj32 a b c) % M32
    [(t1 + t2) % M32, a, b, c, (d + t1) % M32, e, f, g]
  | l => l

/-- Process one 64-byte block. -/
def shaBlock (H : List ℕ) (block : List ℕ) : List ℕ :=
  let w := extendW 48 (beWords block)
  let st := (sha256K.zip w).foldl shaRound H
  (H.zip st).map (fun p => (p.1 + p.2) % M32)

def hexDigit (n : ℕ) : Char :=
  if n < 10 then Char.ofNat (48 + n) else Char.ofNat (87 + n)

/-- Lowercase 8-hex-digit rendering of one 32-bit word. -/
def hex8 (w : ℕ) : List Char :=
  [7, 6, 5, 4, 3, 2, 1, 0].map (fun k => hexDigit ((w >>> (4 * k)) % 16))

/-- SHA-256 of a byte list, as the lowercase hex digest string. -/
def sha256Hex (msg : List ℕ) : String :=
  let padded := shaPad msg
  let final := (blocks64 padded.length padded).foldl shaBlock sha256H0
  ⟨(final.map hex8).flatten⟩

/-- UTF-8 encoding of one character (`str.encode()`). -/
def utf8Bytes (c : Char) : List ℕ :=
  let n := c.toNat
  if n < 0x80 then [n]
  else if n < 0x800 then [0xc0 + n / 64, 0x80 + n % 64]
  else if n < 0x10000 then [0xe0 + n / 4096, 0x80 + (n / 64) % 64, 0x80 + n % 64]
  else [0xf0 + n / 262144, 0x80 + (n / 4096) % 64, 0x80 + (n / 64) % 64, 0x80 + n % 64]

/-- Model of `s.encode()`: UTF-8 bytes of a string. -/
def strBytes (s : String) : List ℕ := (s.data.map utf8Bytes).flatten

/-! ## Decimal rendering (model of `f"{amount:.4f}"`) -/

/-- Round to nearest integer, ties to even (the rounding used when a float is
rendered with a fixed number of decimals). -/
def roundHalfEven (x : ℚ) : ℤ :=
  let f := ⌊x⌋
  let r := x - f
  if r < 1/2 then f else if 1/2 < r then f + 1 else if f % 2 = 0 then f else f + 1

def natDigitsGo : ℕ → ℕ → List Char
  | 0, _ => []
  | fuel + 1, n =>
    if n < 10 then [Char.ofNat (48 + n)]
    else natDigitsGo fuel (n / 10) ++ [Char.ofNat (48 + n % 10)]

/-- Decimal rendering of a natural number. -/
def natStr (n : ℕ) : String := ⟨natDigitsGo (n + 1) n⟩

/-- Exactly four decimal digits (for the fraction part, `n < 10000`). -/
def padZeros4 (n : ℕ) : List Char :=
  [Char.ofNat (48 + n / 1000), Char.ofNat (48 + (n / 100) % 10),
   Char.ofNat (48 + (n / 10) % 10), Char.ofNat (48 + n % 10)]

/-- Model of `f"{x:.4f}"` on the exact value of the float. -/
def format4 (x : ℚ) : String :=
  let n := (roundHalfEven (|x| * 10000)).toNat
  let mag : String := natStr (n / 10000) ++ "." ++ ⟨padZeros4 (n % 10000)⟩
  if x < 0 then "-" ++ mag else mag

/-! ## Hashing entry points (normalizer.py) -/

/-- Model of `compute_file_hash` from `normalizer.py`. -/
def compute_file_hash (data : List ℕ) : String := sha256Hex data

/-- Model of `compute_fingerprint` from `normalizer.py`: SHA-256 of the canonical
string built from the posted date, the stripped raw description and the
amount rendered with four decimals. -/
def compute_fingerprint (posted_date : String) (description_raw : String) (amount : ℚ) : String :=
  sha256Hex (strBytes (posted_date ++ "|" ++ pyStrip description_raw ++ "|" ++ format4 amount))

/-- Model of `normalize_description` from `normalizer.py`: lowercase, strip, collapse
whitespace runs to single spaces. -/
def collapseWsGo : ℕ → List Char → List Char
  | 0, l => l
  | _ + 1, [] => []
  | fuel + 1, c :: rest =>
    if isPyWs c then ' ' :: collapseWsGo fuel (rest.dropWhile isPyWs)
    else c :: collapseWsGo fuel rest

def collapseWs (cs : List Char) : List Char := collapseWsGo cs.length cs

def normalize_description (raw : String) : String :=
  ⟨collapseWs (stripChars (pyLower raw).data)⟩

/-! ## `parse_date` (normalizer.py)

`datetime.strptime` is a standard-library collaborator; it is embedded as an
interpreter of the format directives the 13 formats of `_DATE_FORMATS` use
(`%m %d %y %Y %b %B %H %M %S %f`, literals, and whitespace).  As in CPython:
matching is case-insensitive, whitespace in the format matches one or more
input whitespace characters, each directive uses the ordered alternation of
its regex, the whole input must be consumed, and the parsed fields must form
a valid calendar date (`datetime` raises otherwise). -/

/-- One token of a compiled strptime format. -/
inductive FTok where
  | lit (c : Char)
  | ws
  | dir (c : Char)
deriving DecidableEq

def tokenizeFmtGo : ℕ → List Char → List FTok
  | 0, _ => []
  | _ + 1, [] => []
  | fuel + 1, '%' :: c :: rest => FTok.dir c :: tokenizeFmtGo fuel rest
  | fuel + 1, c :: rest =>
    if isPyWs c then FTok.ws :: tokenizeFmtGo fuel (rest.dropWhile isPyWs)
    else FTok.lit c :: tokenizeFmtGo fuel rest

def tokenizeFmt (s : String) : List FTok := tokenizeFmtGo s.length s.data

/-- Fields recovered by strptime (defaults 1900-01-01, as in CPython). -/
structure TimeP where
  y : ℕ := 1900
  mo : ℕ := 1
  d : ℕ := 1
deriving DecidableEq

def digitVal (c : Char) : ℕ := c.toNat - 48

/-- Model of `%m`: regex `(1[0-2]|0[1-9]|[1-9])`. -/
def parseMonthNum : List Char → Option (ℕ × List Char)
  | [] => none
  | c :: rest =>
    if c = '1' then
      match rest with
      | c2 :: rest2 =>
        if '0' ≤ c2 && c2 ≤ '2' then some (10 + digitVal c2, rest2) else some (1, rest)
      | [] => some (1, [])
    else if c = '0' then
      match rest with
      | c2 :: rest2 => if '1' ≤ c2 && c2 ≤ '9' then some (digitVal c2, rest2) else none
      | [] => none
    else if '2' ≤ c && c ≤ '9' then some (digitVal c, rest)
    else none

/-- Model of `%d`: regex `(3[01]|[12]\d|0[1-9]|[1-9])`. -/
def parseDayNum : List Char → Option (ℕ × List Char)
  | [] => none
  | c :: rest =>
    if c = '3' then
      match rest with
      | c2 :: rest2 =>
        if c2 = '0' || c2 = '1' then some (30 + digitVal c2, rest2) else some (3, rest)
      | [] => some (3, [])
    else if c = '1' || c = '2' then
      match rest with
      | c2 :: rest2 =>
        if c2.isDigit then some (digitVal c * 10 + digitVal c2, rest2)
        else some (digitVal c, rest)
      | [] => some (digitVal c, [])
    else if c = '0' then
      match rest with
      | c2 :: rest2 => if '1' ≤ c2 && c2 ≤ '9' then some (digitVal c2, rest2) else none
      | [] => none
    else if '4' ≤ c && c ≤ '9' then some (digitVal c, rest)
    else none

/-- Model of `%Y`: regex `(\d\d\d\d)`. -/
def parseYear4 : List Char → Option (ℕ × List Char)
  | a :: b :: c :: d :: rest =>
    if a.isDigit && b.isDigit && c.isDigit && d.isDigit then
      some (digitsVal [a, b, c, d], rest)
    else none
  | _ => none

/-- Model of `%y`: regex `(\d\d)` with the CPython pivot (00-68 → 2000s, 69-99 → 1900s). -/
def parseYear2 : List Char → Option (ℕ × List Char)
  | a :: b :: rest =>
    if a.isDigit && b.isDigit then
      let v := digitsVal [a, b]
      some (if v ≤ 68 then 2000 + v else 1900 + v, rest)
    else none
  | _ => none

/-- Model of `%H`: regex `(2[0-3]|[0-1]\d|\d)`. -/
def parseHour : List Char → Option (ℕ × List Char)
  | [] => none
  | c :: rest =>
    if c = '2' then
      match rest with
      | c2 :: rest2 =>
        if '0' ≤ c2 && c2 ≤ '3' then some (20 + digitVal c2, rest2) else some (2, rest)
      | [] => some (2, [])
    else if c = '0' || c = '1' then
      match rest with
      | c2 :: rest2 =>
        if c2.isDigit then some (digitVal c * 10 + digitVal c2, rest2)
        else some (digitVal c, rest)
      | [] => some (digitVal c, [])
    else if c.isDigit then some (digitVal c, rest)
    else none

/-- Model of `%M` and `%S`: regex `([0-5]\d|\d)`. -/
def parseMinSec : List Char → Option (ℕ × List Char)
  | [] => none
  | c :: rest =>
    if '0' ≤ c && c ≤ '5' then
      match rest with
      | c2 :: rest2 =>
        if c2.isDigit then some (digitVal c * 10 + digitVal c2, rest2)
        else some (digitVal c, rest)
      | [] => some (digitVal c, [])
    else if c.isDigit then some (digitVal c, rest)
    else none

/-- Model of `%f`: regex `([0-9]{1,6})`, greedy. -/
def parseFrac (cs : List Char) : Option (ℕ × List Char) :=
  let (ds, rest) := cs.span Char.isDigit
  if ds = [] then none
  else
    let taken := ds.take 6
    some (digitsVal taken, ds.drop 6 ++ rest)

/-- First alternative (in list order) whose name matches case-insensitively. -/
def parseAlt (alts : List (String × ℕ)) (cs : List Char) : Option (ℕ × List Char) :=
  alts.findSome? (fun p => (ciLit p.1.data cs).map (fun rest => (p.2, rest)))

/-- Model of `%b` month abbreviations. -/
def monthAbbrs : List (String × ℕ) :=
  [("jan", 1), ("feb", 2), ("mar", 3), ("apr", 4), ("may", 5), ("jun", 6),
   ("jul", 7), ("aug", 8), ("sep", 9), ("oct", 10), ("nov", 11), ("dec", 12)]

/-- Model of `%B` full month names (sorted by length descending, as CPython compiles
them). -/
def monthFulls : List (String × ℕ) :=
  [("september", 9), ("february", 2), ("november", 11), ("december", 12),
   ("january", 1), ("october", 10), ("august", 8), ("march", 3), ("april", 4),
   ("june", 6), ("july", 7), ("may", 5)]

def applyDir (c : Char) (st : TimeP) (cs : List Char) : Option (TimeP × List Char) :=
  if c = 'm' then (parseMonthNum cs).map (fun p => ({st with mo := p.1}, p.2))
  else if c = 'd' then (parseDayNum cs).map (fun p => ({st with d := p.1}, p.2))
  else if c = 'Y' then (parseYear4 cs).map (fun p => ({st with y := p.1}, p.2))
  else if c = 'y' then (parseYear2 cs).map (fun p => ({st with y := p.1}, p.2))
  else if c = 'b' then (parseAlt monthAbbrs cs).map (fun p => ({st with mo := p.1}, p.2))
  else if c = 'B' then (parseAlt monthFulls cs).map (fun p => ({st with mo := p.1}, p.2))
  else if c = 'H' then (parseHour cs).map (fun p => (st, p.2))
  else if c = 'M' || c = 'S' then (parseMinSec cs).map (fun p => (st, p.2))
  else if c = 'f' then (parseFrac cs).map (fun p => (st, p.2))
  else none

/-- Run a compiled format against the input; the whole input must be
consumed (CPython raises on "unconverted data"). -/
def runToks : List FTok → List Char → TimeP → Option TimeP
  | [], cs, st => if cs = [] then some st else none
  | FTok.ws :: ts, cs, st =>
    let (w, rest) := cs.span isPyWs
    if w = [] then none else runToks ts rest st
  | FTok.lit c :: ts, cs, st =>
    match cs with
    | c2 :: rest => if c.toLower = c2.toLower then runToks ts rest st else none
    | [] => none
  | FTok.dir c :: ts, cs, st =>
    match applyDir c st cs with
    | some p => runToks ts p.2 p.1
    | none => none

def isLeap (y : ℕ) : Bool := y % 4 = 0 && (y % 100 ≠ 0 || y % 400 = 0)

def daysInMonth (y mo : ℕ) : ℕ :=
  if mo = 2 then (if isLeap y then 29 else 28)
  else if mo = 4 || mo = 6 || mo = 9 || mo = 11 then 30
  else 31

/-- Model of `datetime.strptime(v, fmt)` restricted to the date fields, including the
calendar-validity check the `datetime` constructor performs. -/
def strptimeDate (fmt : String) (v : String) : Option (ℕ × ℕ × ℕ) :=
  match runToks (tokenizeFmt fmt) v.data {} with
  | none => none
  | some st =>
    if 1 ≤ st.y && st.d ≤ daysInMonth st.y st.mo then some (st.y, st.mo, st.d) else none

def pad2 (n : ℕ) : String := if n < 10 then "0" ++ natStr n else natStr n

/-- Model of `.strftime("%Y-%m-%d")` of a parsed date. -/
def fmtISO : ℕ × ℕ × ℕ → String
  | (y, m, d) => natStr y ++ "-" ++ pad2 m ++ "-" ++ pad2 d

/-- Model of `_DATE_FORMATS` from `normalizer.py`, in source order. -/
def DATE_FORMATS : List String :=
  ["%m/%d/%Y", "%Y-%m-%d", "%d/%m/%Y", "%m-%d-%Y", "%d-%m-%Y", "%Y/%m/%d",
   "%m/%d/%y", "%d-%b-%Y", "%d %b %Y", "%b %d, %Y", "%B %d, %Y",
   "%Y-%m-%dT%H:%M:%S", "%Y-%m-%dT%H:%M:%S.%f"]

/-- Model of `parse_date` from `normalizer.py`: first format that parses wins,
reformatted as ISO; otherwise the trimmed input is returned unchanged. -/
def parse_date (value : String) : String :=
  let v := pyStrip value
  match DATE_FORMATS.findSome? (fun fmt => strptimeDate fmt v) with
  | some d => fmtISO d
  | none => v

/-! ## `extract_merchant_candidate` (normalizer.py)

The `_PREFIX_RE` alternation, the `*`-separator logic and the `_TRAILING`
noise patterns, embedded branch by branch in source order.  Alternations are
ordered (first branch wins) as in Python's `re`; the greedy quantifiers in
these patterns never need backtracking because each is followed by a
character class disjoint from the quantified one, except the two optional
`(CARD\s+)?` groups which are tried with the group first, as the engine
does. -/

/-- Maximal whitespace run, `\s*`. -/
def wsStar (cs : List Char) : List Char := cs.dropWhile isPyWs

/-- Model of `\s+`: at least one whitespace character, then the maximal run. -/
def wsPlus : List Char → Option (List Char)
  | c :: rest => if isPyWs c then some (rest.dropWhile isPyWs) else none
  | [] => none

/-- First alternative (source order) that matches case-insensitively. -/
def ciAlt (alts : List String) (cs : List Char) : Option (List Char) :=
  alts.findSome? (fun a => ciLit a.data cs)

/-- Model of `ONLINE (?:PAYMENT|PURCHASE|TRANSFER|BANKING TRANSFER)\s*[-–]?\s*` -/
def brOnline (cs : List Char) : Option (List Char) := do
  let r ← ciLit "ONLINE ".data cs
  let r ← ciAlt ["PAYMENT", "PURCHASE", "TRANSFER", "BANKING TRANSFER"] r
  let r := wsStar r
  let r := match r with
    | '-' :: t => t
    | '–' :: t => t
    | t => t
  pure (wsStar r)

/-- Model of `DEBIT CARD (?:PURCHASE|PAYMENT)\s+` -/
def brDebitCard (cs : List Char) : Option (List Char) := do
  let r ← ciLit "DEBIT CARD ".data cs
  let r ← ciAlt ["PURCHASE", "PAYMENT"] r
  wsPlus r

/-- Model of `DEBIT (?:CARD\s+)?PURCHASE\s+` -/
def brDebit (cs : List Char) : Option (List Char) := do
  let r ← ciLit "DEBIT ".data cs
  (do
    let r2 ← ciLit "CARD".data r
    let r2 ← wsPlus r2
    let r2 ← ciLit "PURCHASE".data r2
    wsPlus r2) <|>
  (do
    let r2 ← ciLit "PURCHASE".data r
    wsPlus r2)

/-- Model of `DEBIT PURCHASE\s+` -/
def brDebitPurchase (cs : List Char) : Option (List Char) := do
  let r ← ciLit "DEBIT PURCHASE".data cs
  wsPlus r

/-- Model of `RECURRING (?:CHARGE|PAYMENT|PMT)\s+` -/
def brRecurring (cs : List Char) : Option (List Char) := do
  let r ← ciLit "RECURRING ".data cs
  let r ← ciAlt ["CHARGE", "PAYMENT", "PMT"] r
  wsPlus r

/-- Model of `BILL PAYMENT\s+` -/
def brBillPayment (cs : List Char) : Option (List Char) := do
  let r ← ciLit "BILL PAYMENT".data cs
  wsPlus r

/-- Model of `POS (?:PURCHASE|DEBIT|PMT|REFUND)?\s*` -/
def brPos (cs : List Char) : Option (List Char) := do
  let r ← ciLit "POS ".data cs
  let r := (ciAlt ["PURCHASE", "DEBIT", "PMT", "REFUND"] r).getD r
  pure (wsStar r)

/-- Model of `ACH (?:DEBIT|CREDIT|PMT|PAYMENT|TRANSFER)?\s*` -/
def brAch (cs : List Char) : Option (List Char) := do
  let r ← ciLit "ACH ".data cs
  let r := (ciAlt ["DEBIT", "CREDIT", "PMT", "PAYMENT", "TRANSFER"] r).getD r
  pure (wsStar r)

/-- Model of `WIRE (?:TRANSFER|PMT)\s+` -/
def brWire (cs : List Char) : Option (List Char) := do
  let r ← ciLit "WIRE ".data cs
  let r ← ciAlt ["TRANSFER", "PMT"] r
  wsPlus r

/-- Model of `CHECK (?:CARD\s+)?PURCHASE\s+` -/
def brCheck (cs : List Char) : Option (List Char) := do
  let r ← ciLit "CHECK ".data cs
  (do
    let r2 ← ciLit "CARD".data r
    let r2 ← wsPlus r2
    let r2 ← ciLit "PURCHASE".data r2
    wsPlus r2) <|>
  (do
    let r2 ← ciLit "PURCHASE".data r
    wsPlus r2)

/-- Model of `WORD\s*\*\s*` (the TST/SQ/PP/AMZN star patterns). -/
def brStar (word : String) (cs : List Char) : Option (List Char) := do
  let r ← ciLit word.data cs
  match wsStar r with
  | '*' :: t => pure (wsStar t)
  | _ => none

/-- Model of `WORD\s*\*?\s*` (the PAYPAL/VENMO patterns). -/
def brOptStar (word : String) (cs : List Char) : Option (List Char) := do
  let r ← ciLit word.data cs
  let r := wsStar r
  let r := match r with | '*' :: t => t | t => t
  pure (wsStar r)

/-- Model of `APPLE\.COM/BILL\s+` -/
def brAppleBill (cs : List Char) : Option (List Char) := do
  let r ← ciLit "APPLE.COM/BILL".data cs
  wsPlus r

/-- Model of `GOOGLE\s+PLAY\s+` -/
def brGooglePlay (cs : List Char) : Option (List Char) := do
  let r ← ciLit "GOOGLE".data cs
  let r ← wsPlus r
  let r ← ciLit "PLAY".data r
  wsPlus r

/-- Model of `AMZN\s+MKTP\s+` -/
def brAmznMktp (cs : List Char) : Option (List Char) := do
  let r ← ciLit "AMZN".data cs
  let r ← wsPlus r
  let r ← ciLit "MKTP".data r
  wsPlus r

/-- The branches of `_PREFIX_RE`, in source order. -/
def LEAD_BRANCHES : List (List Char → Option (List Char)) :=
  [brOnline, brDebitCard, brDebit, brDebitPurchase, brRecurring, brBillPayment,
   brPos, brAch, brWire, brCheck, brStar "TST", brStar "SQ", brStar "PP",
   brOptStar "PAYPAL", brOptStar "VENMO", brAppleBill, brGooglePlay,
   brAmznMktp, brStar "AMZN"]

/-- Model of `_PREFIX_RE.sub("", s)`: the pattern is anchored at the start, so at most
one match is removed. -/
def leadNoiseSub (cs : List Char) : List Char :=
  match LEAD_BRANCHES.findSome? (fun br => br cs) with
  | some rest => rest
  | none => cs

/-- Model of `s.partition("*")` without the separator: characters before and after the
first `*`. -/
def splitFirstStar : List Char → List Char × List Char
  | [] => ([], [])
  | '*' :: rest => ([], rest)
  | c :: rest =>
    let (b, a) := splitFirstStar rest
    (c :: b, a)

/-- Step 2 of `extract_merchant_candidate`: the `*`-separator logic. -/
def starHandle (s : List Char) : List Char :=
  if s.contains '*' then
    let p := splitFirstStar s
    let before := stripChars p.1
    let after := stripChars p.2
    let first_token := after.takeWhile (fun c => !isPyWs c)
    if after = [] || first_token.any Char.isDigit then before
    else if !(after.contains ' ') && after.length ≤ 20 then before ++ ' ' :: after
    else if after.contains ' ' && !(first_token.any Char.isDigit) then before ++ ' ' :: after
    else before
  else s

/-- Model of `\w` (ASCII). -/
def isWordChar (c : Char) : Bool := c.isAlphanum || c = '_'

def isUpper (c : Char) : Bool := 'A' ≤ c && c ≤ 'Z'

/-- Model of `\s+\d{2}<sep>\d{2}(?:<sep>\d{2,4})?$` (trailing date). -/
def pDate2 (sep : Char) (cs : List Char) : Bool :=
  match wsPlus cs with
  | none => false
  | some r =>
    let (d1, r1) := r.span Char.isDigit
    if d1.length ≠ 2 then false
    else
      match r1 with
      | [] => false
      | c :: r2 =>
        if c ≠ sep then false
        else
          let (d2, r3) := r2.span Char.isDigit
          if d2.length ≠ 2 then false
          else
            match r3 with
            | [] => true
            | c2 :: r4 =>
              if c2 ≠ sep then false
              else
                let (d3, r5) := r4.span Char.isDigit
                decide (2 ≤ d3.length) && decide (d3.length ≤ 4) && r5 = []

/-- Model of `\s+#\w[\w\-]*(?:\s.*)?$` (receipt / reference token). -/
def pHashRef (cs : List Char) : Bool :=
  match wsPlus cs with
  | none => false
  | some r =>
    match r with
    | '#' :: c :: rest =>
      if isWordChar c then
        let r2 := (rest.span (fun x => isWordChar x || x = '-')).2
        match r2 with
        | [] => true
        | c2 :: _ => isPyWs c2
      else false
    | _ => false

/-- Model of `\s+REF\s*#?\w+$` -/
def pRef (cs : List Char) : Bool :=
  match wsPlus cs with
  | none => false
  | some r =>
    match ciLit "REF".data r with
    | none => false
    | some r2 =>
      let r3 := wsStar r2
      let r4 := match r3 with | '#' :: t => t | t => t
      r4 ≠ [] && r4.all isWordChar

/-- Model of `\s+TXN\s*#?\w*$` -/
def pTxn (cs : List Char) : Bool :=
  match wsPlus cs with
  | none => false
  | some r =>
    match ciLit "TXN".data r with
    | none => false
    | some r2 =>
      let r3 := wsStar r2
      let r4 := match r3 with | '#' :: t => t | t => t
      r4.all isWordChar

/-- Model of `\s+PMT$` -/
def pPmt (cs : List Char) : Bool :=
  match wsPlus cs with
  | none => false
  | some r =>
    match ciLit "PMT".data r with
    | some [] => true
    | _ => false

/-- Model of `\s+\d{6,}$` -/
def pLongDigits (cs : List Char) : Bool :=
  match wsPlus cs with
  | none => false
  | some r =>
    let (ds, r2) := r.span Char.isDigit
    decide (6 ≤ ds.length) && r2 = []

/-- Model of `\s+[A-Z]{2}\s+\d{5}(?:-\d{4})?$` (state + ZIP). -/
def pStateZip (cs : List Char) : Bool :=
  match wsPlus cs with
  | some (a :: b :: r) =>
    if isUpper a && isUpper b then
      match wsPlus r with
      | some r2 =>
        let (ds, r3) := r2.span Char.isDigit
        if ds.length = 5 then
          match r3 with
          | [] => true
          | '-' :: r4 =>
            let (ds2, r5) := r4.span Char.isDigit
            ds2.length = 4 && r5 = []
          | _ => false
        else false
      | none => false
    else false
  | _ => false

/-- Model of `\s+[A-Z]{2}$` (bare trailing state). -/
def pState2 (cs : List Char) : Bool :=
  match wsPlus cs with
  | some [a, b] => isUpper a && isUpper b
  | _ => false

/-- Remove the leftmost match of an end-anchored pattern (`pat.sub("", s)`
for a pattern that always extends to `$`). -/
def subEnd (p : List Char → Bool) : List Char → List Char
  | [] => []
  | c :: rest => if p (c :: rest) then [] else c :: subEnd p rest

/-- Model of `_TRAILING` from `normalizer.py`, in source order. -/
def TRAILING_PATS : List (List Char → Bool) :=
  [pDate2 '/', pDate2 '-', pHashRef, pRef, pTxn, pPmt, pLongDigits, pStateZip, pState2]

def applyTrailing (s : List Char) : List Char :=
  TRAILING_PATS.foldl (fun acc p => subEnd p acc) s

/-- The `while prev != s` loop of `_strip_trailing_noise`; each productive
pass strictly shortens the string, so `length + 1` passes reach the fixed
point the Python loop reaches. -/
def noiseLoopGo : ℕ → List Char → List Char
  | 0, s => s
  | fuel + 1, s =>
    let s' := applyTrailing s
    if s' = s then s else noiseLoopGo fuel s'

/-- Model of `_strip_trailing_noise` from `normalizer.py`. -/
def stripTrailingNoise (s : List Char) : List Char :=
  let r := noiseLoopGo (s.length + 1) s
  let r1 := stripChars r
  let r2 := (r1.reverse.dropWhile (fun c => c = '*' || c = '#')).reverse
  stripChars r2

/-- Python `str.title()` (ASCII cased characters). -/
def titleChars : Bool → List Char → List Char
  | _, [] => []
  | prevAlpha, c :: t =>
    (if c.isAlpha then (if prevAlpha then c.toLower else c.toUpper) else c) ::
      titleChars c.isAlpha t

/-- Steps 1-5 of `extract_merchant_candidate` on an already-stripped
non-empty input. -/
def mcPipeline (s : String) : String :=
  let s1 := stripChars (leadNoiseSub s.data)
  let s2 := starHandle s1
  let s3 := stripTrailingNoise s2
  let s4 := stripChars (collapseWs s3)
  ⟨if s4 ≠ [] then titleChars false s4 else s4⟩

/-- Model of `extract_merchant_candidate` from `normalizer.py`. -/
def extract_merchant_candidate (raw : String) : String :=
  let s := pyStrip raw
  if s = "" then s
  else if mcPipeline s ≠ "" then mcPipeline s else s

/-! ## `categorize` (categorizer.py)

The `re` engine for user-supplied regex rules is a collaborator: it is
embedded as an oracle `rx : String → String → Option Bool` where `none`
models the `re.error` raised on an invalid pattern (the only statement in
the `try` body that can raise it) and `some b` is the boolean result of
`re.search(pattern, description, re.IGNORECASE)`. -/

structure Rule where
  id : ℤ
  pattern : String
  match_type : String
  category_id : ℤ
  priority : ℤ
  is_active : Bool
deriving DecidableEq

/-- Body of the `try` block of `categorize` for one rule: `some matched`, or
`none` for a raised `re.error`. -/
def ruleMatches (rx : String → String → Option Bool) (r : Rule)
    (description_norm : String) : Option Bool :=
  if r.match_type = "contains" then
    some (hasSub (pyLower r.pattern).data description_norm.data)
  else if r.match_type = "exact" then
    some (pyLower r.pattern == pyStrip description_norm)
  else if r.match_type = "regex" then rx r.pattern description_norm
  else some false

/-- Model of `categorize` from `categorizer.py`. -/
def categorize (rx : String → String → Option Bool) (description_norm : String) :
    List Rule → Option ℤ × Option ℤ
  | [] => (none, none)
  | r :: rest =>
    if !r.is_active then categorize rx description_norm rest
    else
      match ruleMatches rx r description_norm with
      | some true => (some r.category_id, some r.id)
      | some false => categorize rx description_norm rest
      | none => categorize rx description_norm rest

/-- The first active rule whose match succeeds (the spec's reading of
first-match-wins). -/
def firstMatchRule (rx : String → String → Option Bool) (description_norm : String)
    (rules : List Rule) : Option Rule :=
  rules.find? (fun r => r.is_active && (ruleMatches rx r description_norm == some true))

/-- Model of `(priority DESC, id ASC)` sortedness of a rule list. -/
def rulesSortedDesc : List Rule → Bool
  | [] => true
  | [_] => true
  | a :: b :: t =>
    (decide (b.priority < a.priority) ||
      (a.priority == b.priority && decide (a.id < b.id))) && rulesSortedDesc (b :: t)

/-! ## Merchant canonicalizer (merchant_canonicalizer.py)

The session is explicit: each entry point returns the new state together
with a `Bool` recording whether `db.commit()` was invoked. -/

structure MAlias where
  aliasName : String
  canonical : String
deriving DecidableEq

structure MTx where
  import_id : ℤ
  merchant : Option String
  merchant_canonical : Option String
deriving DecidableEq

structure MDb where
  aliases : List MAlias
  txns : List MTx
deriving DecidableEq

/-- Model of `_build_alias_map`: `{a.alias.lower(): a.canonical}` (later duplicate
keys overwrite earlier ones, as in a Python dict build). -/
def buildAliasMap (db : MDb) : List (String × String) :=
  db.aliases.map (fun a => (pyLower a.aliasName, a.canonical))

/-- Python `dict.get(k, dflt)` on an insertion-ordered association list. -/
def dictGet (m : List (String × String)) (k : String) (dflt : String) : String :=
  match m.reverse.find? (fun p => p.1 == k) with
  | some p => p.2
  | none => dflt

/-- Model of `get_canonical` from `merchant_canonicalizer.py`. -/
def get_canonical (merchant : String) (alias_map : List (String × String)) : String :=
  dictGet alias_map (pyStrip (pyLower merchant)) merchant

/-- Python truthiness of an optional string (`if tx.merchant`). -/
def pyTruthy : Option String → Bool
  | none => false
  | some s => s ≠ ""

/-- The value assigned to `merchant_canonical` for one transaction:
`get_canonical(tx.merchant, alias_map) if tx.merchant else None`. -/
def newCanonical (alias_map : List (String × String)) (tx : MTx) : Option String :=
  if pyTruthy tx.merchant then some (get_canonical (tx.merchant.getD "") alias_map) else none

/-- Model of `apply_canonical_to_import`: assigns every transaction of the batch and
then calls `db.commit()` unconditionally. -/
def apply_canonical_to_import (db : MDb) (import_id : ℤ) : MDb × Bool :=
  let alias_map := buildAliasMap db
  let txns' := db.txns.map (fun tx =>
    if tx.import_id == import_id then { tx with merchant_canonical := newCanonical alias_map tx }
    else tx)
  ({ db with txns := txns' }, true)

/-- Model of `rebuild_canonical_all`: assigns only changed rows, counts them, commits
only when the count is positive; returns `(state, committed, updated,
total)`. -/
def rebuild_canonical_all (db : MDb) : MDb × Bool × ℕ × ℕ :=
  let alias_map := buildAliasMap db
  let updated := (db.txns.filter (fun tx => tx.merchant_canonical != newCanonical alias_map tx)).length
  let txns' := db.txns.map (fun tx =>
    if tx.merchant_canonical != newCanonical alias_map tx then
      { tx with merchant_canonical := newCanonical alias_map tx }
    else tx)
  ({ db with txns := txns' }, decide (0 < updated), updated, db.txns.length)

/-! ## Text-statement parsing (pdf_extractor.py)

The three line-based parsers and the format dispatch of
`_parse_text_lines`.  The lazy groups of `_RE_YE_DATE_LINE`,
`_RE_AMOUNT_END` and `_RE_TWO_NUMS` are implemented by scanning for the
earliest split at which the rest of the pattern matches, which is the
backtracking engine's result for these patterns (each greedy run is
followed by a character it cannot contain). -/

structure TxRow where
  date : String
  description : String
  amount : String
deriving DecidableEq, Repr

inductive ExtractResult where
  | preview (headers : List String) (rows : List TxRow) (pages : ℕ)
  | needsManualMapping (pages : ℕ) (reason : String)
deriving DecidableEq, Repr

/-- Model of `_TEXT_NOISE_PREFIXES` from `pdf_extractor.py`. -/
def TEXT_NOISE_LEAD : List String :=
  ["total ", "beginning balance", "ending balance", "opening balance",
   "closing balance", "deposits and other", "withdrawals and other",
   "account number", "page ", "statement period", "statement date",
   "customer service", "please see", "for questions", "for more information"]

/-- Model of `_TEXT_NOISE_CONTAINS` from `pdf_extractor.py`. -/
def TEXT_NOISE_CONT : List String :=
  ["- continued", "continued on next", "continued on page"]

/-- Model of `_is_text_noise` from `pdf_extractor.py`. -/
def isTextNoise (line : String) : Bool :=
  let lower := pyLower line
  TEXT_NOISE_LEAD.any (fun p => pyStarts lower p) ||
    TEXT_NOISE_CONT.any (fun s => hasSub s.data lower.data)

/-- Model of `_RE_YE_COLUMN_HEADER.match`: `^date\s+description\s+location\s+amount\s*$`. -/
def yeHeaderB (cs : List Char) : Bool :=
  (do
    let r ← ciLit "date".data cs
    let r ← wsPlus r
    let r ← ciLit "description".data r
    let r ← wsPlus r
    let r ← ciLit "location".data r
    let r ← wsPlus r
    let r ← ciLit "amount".data r
    pure (wsStar r)) == some []

/-- Model of `_RE_SECTION_HEADER.match`: `^date\s+description\s+amount\s*$`. -/
def sectionHeaderB (cs : List Char) : Bool :=
  (do
    let r ← ciLit "date".data cs
    let r ← wsPlus r
    let r ← ciLit "description".data r
    let r ← wsPlus r
    let r ← ciLit "amount".data r
    pure (wsStar r)) == some []

/-- Model of `_RE_TABULAR_HEADER` at one position: `date\s+description\s+amount\s+running\s+bal`. -/
def tabHeaderAt (cs : List Char) : Bool :=
  (do
    let r ← ciLit "date".data cs
    let r ← wsPlus r
    let r ← ciLit "description".data r
    let r ← wsPlus r
    let r ← ciLit "amount".data r
    let r ← wsPlus r
    let r ← ciLit "running".data r
    let r ← wsPlus r
    let _ ← ciLit "bal".data r
    pure ()).isSome

/-- Model of `_RE_TABULAR_HEADER.search`: the pattern at any position. -/
def tabHeaderSearch : List Char → Bool
  | [] => tabHeaderAt []
  | c :: rest => tabHeaderAt (c :: rest) || tabHeaderSearch rest

/-- Maximal digit run of exactly `n` digits. -/
def digitRunExact (n : ℕ) (cs : List Char) : Option (List Char × List Char) :=
  let (ds, r) := cs.span Char.isDigit
  if ds.length = n then some (ds, r) else none

/-- Maximal digit run of between `lo` and `hi` digits. -/
def digitRunBetween (lo hi : ℕ) (cs : List Char) : Option (List Char × List Char) :=
  let (ds, r) := cs.span Char.isDigit
  if lo ≤ ds.length && ds.length ≤ hi then some (ds, r) else none

/-- Model of `\s+(.+)$`: one-or-more whitespace then a non-empty greedy rest (with
the single-step give-back the engine performs when the rest would be
empty). -/
def wsThenRest (tail : List Char) : Option (List Char) :=
  let (w, rest) := tail.span isPyWs
  if w = [] then none
  else if rest ≠ [] then some rest
  else if 2 ≤ w.length then some [w.getLastD ' ']
  else none

/-- Model of `-?[\d,]+\.\d{2}` at the head; returns the matched amount text and the
rest. -/
def amtNum (cs : List Char) : Option (List Char × List Char) :=
  let (sgnChars, r0) : List Char × List Char :=
    match cs with
    | '-' :: t => (['-'], t)
    | t => ([], t)
  let (run, r1) := r0.span (fun c => c.isDigit || c = ',')
  if run = [] then none
  else
    match r1 with
    | '.' :: a :: b :: r2 =>
      if a.isDigit && b.isDigit then some (sgnChars ++ run ++ '.' :: [a, b], r2) else none
    | _ => none

/-- Model of `[\d,]+\.\d{2}` (no sign), as in `_RE_YE_DATE_LINE`. -/
def amtNumYE (cs : List Char) : Option (List Char × List Char) :=
  let (run, r1) := cs.span (fun c => c.isDigit || c = ',')
  if run = [] then none
  else
    match r1 with
    | '.' :: a :: b :: r2 =>
      if a.isDigit && b.isDigit then some (run ++ '.' :: [a, b], r2) else none
    | _ => none

/-- Tail `\s+(-?[\d,]+\.\d{2})\s*$` of `_RE_AMOUNT_END`. -/
def tailAE (cs : List Char) : Option (List Char) := do
  let r ← wsPlus cs
  let p ← amtNum r
  if p.2.all isPyWs then pure p.1 else none

/-- Lazy `(.*?)` scan of `_RE_AMOUNT_END`: earliest split whose tail
matches. -/
def amountEndGo (acc : List Char) : List Char → Option (List Char × List Char)
  | [] => none
  | c :: rest =>
    match tailAE (c :: rest) with
    | some amt => some (acc.reverse, amt)
    | none => amountEndGo (c :: acc) rest

/-- Model of `_RE_AMOUNT_END.match`: `^(.*?)\s+(-?[\d,]+\.\d{2})\s*$`, returning
`(group1, group2)`. -/
def amountEndMatch (cs : List Char) : Option (List Char × List Char) :=
  amountEndGo [] cs

/-- Tail `\s+([\d,]+\.\d{2})\s*$` of `_RE_YE_DATE_LINE`. -/
def tailYE (cs : List Char) : Option (List Char) := do
  let r ← wsPlus cs
  let p ← amtNumYE r
  if p.2.all isPyWs then pure p.1 else none

/-- Lazy `(.+?)` scan (the description is non-empty): earliest end position
whose tail matches. -/
def yeScanGo (acc : List Char) : List Char → Option (List Char × List Char)
  | [] => none
  | c :: rest =>
    match tailYE rest with
    | some amt => some ((c :: acc).reverse, amt)
    | none => yeScanGo (c :: acc) rest

/-- The `\s+(.+?)` part of `_RE_YE_DATE_LINE`: the engine keeps the leading
whitespace run maximal and gives characters back to the lazy group only on
failure, so try each whitespace-prefix length from longest to shortest. -/
def yeKLoop (rest : List Char) : ℕ → Option (List Char × List Char)
  | 0 => none
  | k + 1 =>
    match yeScanGo [] (rest.drop (k + 1)) with
    | some r => some r
    | none => yeKLoop rest k

def yeSplit (rest : List Char) : Option (List Char × List Char) :=
  yeKLoop rest (rest.takeWhile isPyWs).length

/-- Model of `_RE_YE_DATE_LINE.match`:
`^(\d{2}/\d{2}/\d{2})\s+(.+?)\s+([\d,]+\.\d{2})\s*$`, returning
`(date, description, amount)` groups. -/
def yeDateMatch (cs : List Char) : Option (List Char × List Char × List Char) := do
  let (d1, r1) ← digitRunExact 2 cs
  match r1 with
  | '/' :: r2 => do
    let (d2, r3) ← digitRunExact 2 r2
    match r3 with
    | '/' :: r4 => do
      let (d3, r5) ← digitRunExact 2 r4
      let p ← yeSplit r5
      pure (d1 ++ '/' :: d2 ++ '/' :: d3, p.1, p.2)
    | _ => none
  | _ => none

/-- Model of `_RE_DATE_LINE.match`: `^(\d{1,2}/\d{1,2}/\d{2,4})\s+(.+)$`. -/
def dateLineMatch (cs : List Char) : Option (List Char × List Char) := do
  let (d1, r1) ← digitRunBetween 1 2 cs
  match r1 with
  | '/' :: r2 => do
    let (d2, r3) ← digitRunBetween 1 2 r2
    match r3 with
    | '/' :: r4 => do
      let (d3, r5) ← digitRunBetween 2 4 r4
      let g2 ← wsThenRest r5
      pure (d1 ++ '/' :: d2 ++ '/' :: d3, g2)
    | _ => none
  | _ => none

/-- Model of `_RE_FULL_DATE.match`: `^(\d{2}/\d{2}/\d{4})\s+(.+)$`. -/
def fullDateMatch (cs : List Char) : Option (List Char × List Char) := do
  let (d1, r1) ← digitRunExact 2 cs
  match r1 with
  | '/' :: r2 => do
    let (d2, r3) ← digitRunExact 2 r2
    match r3 with
    | '/' :: r4 => do
      let (d3, r5) ← digitRunExact 4 r4
      let g2 ← wsThenRest r5
      pure (d1 ++ '/' :: d2 ++ '/' :: d3, g2)
    | _ => none
  | _ => none

/-- Model of `\s{3,}`. -/
def ws3Plus (cs : List Char) : Option (List Char) :=
  let (w, r) := cs.span isPyWs
  if 3 ≤ w.length then some r else none

/-- Tail `\s{3,}(num)\s{3,}(num)\s*$` of `_RE_TWO_NUMS`. -/
def tail2N (cs : List Char) : Option (List Char × List Char) := do
  let r ← ws3Plus cs
  let p1 ← amtNum r
  let r2 ← ws3Plus p1.2
  let p2 ← amtNum r2
  if p2.2.all isPyWs then pure (p1.1, p2.1) else none

/-- Lazy `(.*?)` scan of `_RE_TWO_NUMS`. -/
def twoNumsGo (acc : List Char) : List Char → Option (List Char × List Char × List Char)
  | [] => none
  | c :: rest =>
    match tail2N (c :: rest) with
    | some p => some (acc.reverse, p.1, p.2)
    | none => twoNumsGo (c :: acc) rest

/-- Model of `_RE_TWO_NUMS.match`:
`^(.*?)\s{3,}(-?[\d,]+\.\d{2})\s{3,}(-?[\d,]+\.\d{2})\s*$`. -/
def twoNumsMatch (cs : List Char) : Option (List Char × List Char × List Char) :=
  twoNumsGo [] cs

/-- Model of `_parse_year_end_summary` from `pdf_extractor.py`: every matched line
becomes a row whose amount is the negated source amount. -/
def parseYearEndSummary (all_lines : List String) : List TxRow :=
  all_lines.filterMap (fun raw_line =>
    let line := pyStrip raw_line
    if line = "" then none
    else
      match yeDateMatch line.data with
      | none => none
      | some (dt, desc, amt) =>
        some (TxRow.mk ⟨dt⟩ (pyStrip ⟨desc⟩) ⟨'-' :: amt.filter (fun c => c ≠ ',')⟩))

/-- One line of `_parse_tabular`'s loop. -/
def tabStep (st : Bool × List TxRow) (raw_line : String) : Bool × List TxRow :=
  let line := pyStrip raw_line
  if line = "" then st
  else if tabHeaderSearch line.data then (true, st.2)
  else if !st.1 then st
  else
    match fullDateMatch line.data with
    | none => st
    | some (dt, g2) =>
      let rest := stripChars g2
      if isTextNoise ⟨rest⟩ then st
      else
        match twoNumsMatch rest with
        | none => st
        | some (desc, a1, _) =>
          let description := stripChars ((desc.reverse.dropWhile (fun c => c = '\\')).reverse)
          (st.1, st.2 ++ [TxRow.mk ⟨dt⟩ ⟨description⟩ ⟨a1.filter (fun c => c ≠ ',')⟩])

/-- Model of `_parse_tabular` from `pdf_extractor.py`. -/
def parseTabular (all_lines : List String) : List TxRow :=
  (all_lines.foldl tabStep (false, [])).2

/-- Loop state of `_parse_section_based` (`in_section`, `current`, output). -/
structure SecState where
  in_section : Bool
  wip : Option TxRow
  acc : List TxRow

/-- One line of `_parse_section_based`'s loop. -/
def secStep (st : SecState) (raw_line : String) : SecState :=
  let line := pyStrip raw_line
  if line = "" then st
  else if sectionHeaderB line.data then { st with in_section := true }
  else if !st.in_section then st
  else if isTextNoise line then st
  else
    match dateLineMatch line.data with
    | some (dt, g2) =>
      let acc' := match st.wip with | some t => st.acc ++ [t] | none => st.acc
      let rest := stripChars g2
      let row :=
        match amountEndMatch rest with
        | some (desc, amt) => TxRow.mk ⟨dt⟩ (pyStrip ⟨desc⟩) ⟨amt.filter (fun c => c ≠ ',')⟩
        | none => TxRow.mk ⟨dt⟩ ⟨rest⟩ ""
      { in_section := st.in_section, wip := some row, acc := acc' }
    | none =>
      match st.wip with
      | none => st
      | some cur =>
        if cur.amount = "" then
          match amountEndMatch line.data with
          | some (desc, amt) =>
            { st with wip := some { cur with
                description := pyStrip (cur.description ++ " " ++ ⟨desc⟩),
                amount := ⟨amt.filter (fun c => c ≠ ',')⟩ } }
          | none =>
            { st with wip := some { cur with
                description := pyStrip (cur.description ++ " " ++ line) } }
        else
          { st with wip := some { cur with
              description := pyStrip (cur.description ++ " " ++ line) } }

/-- Model of `_parse_section_based` from `pdf_extractor.py`. -/
def parseSectionBased (all_lines : List String) : List TxRow :=
  let st := all_lines.foldl secStep ⟨false, none, []⟩
  let txs := match st.wip with | some t => st.acc ++ [t] | none => st.acc
  txs.filter (fun t => t.amount ≠ "")

/-- Model of `_parse_text_lines` from `pdf_extractor.py`: sentinel-based format
auto-detection and dispatch. -/
def parseTextLines (all_lines : List String) (pages : ℕ) : ExtractResult :=
  let stripped := all_lines.map pyStrip
  let is_year_end := stripped.any (fun l => yeHeaderB l.data)
  let is_tabular := stripped.any (fun l => tabHeaderSearch l.data)
  let transactions :=
    if is_year_end then parseYearEndSummary all_lines
    else if is_tabular then parseTabular all_lines
    else parseSectionBased all_lines
  if transactions = [] then ExtractResult.needsManualMapping pages "no_transactions_found"
  else ExtractResult.preview ["Date", "Description", "Amount"] transactions pages

/-! ## Import orchestrator (csv_importer.py)

All four entry points (`import_csv`, `import_csv_with_mapping`,
`import_paypal_csv`, `import_pdf_with_mapping`) share one state machine:
file-hash dedup short-circuit, batch creation, the row loop around
`_insert_transaction` with the in-memory `batch_seen` set and the
cross-import fingerprint check, then best-effort post-processing
(categorization and canonicalization).  The per-variant parsing,
column-mapping validation and row filtering are the function parameter
`extract` (each variant's extractor is a deterministic function of the file
bytes; a `none` row is one the loop skips before the insert attempt), and
the post-processing pass is the parameter `post`.  A first call that raises
during validation creates no state, so the re-import claim concerns a
successful first import, which this model captures. -/

structure RowData where
  posted_date : String
  description_raw : String
  amount : ℚ
  currency : String
  merchant : Option String
deriving DecidableEq

structure TxRec where
  import_id : ℕ
  posted_date : String
  description_raw : String
  description_norm : String
  amount_cents : ℤ
  currency : String
  merchant : Option String
  fingerprint_hash : String
deriving DecidableEq

structure ImportRec where
  id : ℕ
  filename : String
  file_hash : String
  source_type : String
deriving DecidableEq

structure Db where
  imports : List ImportRec
  transactions : List TxRec
  nextId : ℕ
deriving DecidableEq

structure ImportOutcome where
  batchId : ℕ
  inserted : ℕ
  skipped : ℕ
deriving DecidableEq

/-- Model of `_insert_transaction` from `csv_importer.py`: in-batch `batch_seen`
check, cross-import fingerprint check, then insert.  Returns
`(inserted?, db, batch_seen)`. -/
def insertTransaction (db : Db) (seen : List String) (bid : ℕ) (r : RowData) :
    Bool × Db × List String :=
  let fp := compute_fingerprint r.posted_date r.description_raw r.amount
  if seen.contains fp then (false, db, seen)
  else if db.transactions.any (fun t => t.fingerprint_hash == fp) then (false, db, seen)
  else
    (true,
     { db with transactions := db.transactions ++
        [TxRec.mk bid r.posted_date r.description_raw
          (normalize_description r.description_raw) (to_cents r.amount) r.currency
          r.merchant fp] },
     seen ++ [fp])

/-- The row loop shared by the four import entry points. -/
def runRows (bid : ℕ) : List (Option RowData) → Db → List String → ℕ → ℕ → Db × ℕ × ℕ
  | [], db, _, ins, skp => (db, ins, skp)
  | none :: rest, db, seen, ins, skp => runRows bid rest db seen ins (skp + 1)
  | some r :: rest, db, seen, ins, skp =>
    let p := insertTransaction db seen bid r
    if p.1 then runRows bid rest p.2.1 p.2.2 (ins + 1) skp
    else runRows bid rest p.2.1 p.2.2 ins (skp + 1)

/-- The shared import state machine: file-level dedup short-circuit (returns
`inserted=0` and the batch's persisted row count), or batch creation, row
loop, and post-processing. -/
def importEntry (extract : List ℕ → List (Option RowData)) (post : Db → Db)
    (filename source_type : String) (db : Db) (content : List ℕ) : Db × ImportOutcome :=
  let file_hash := compute_file_hash content
  match db.imports.find? (fun b => b.file_hash == file_hash) with
  | some existing =>
    (db, ⟨existing.id, 0,
      (db.transactions.filter (fun t => t.import_id == existing.id)).length⟩)
  | none =>
    let bid := db.nextId
    let db1 : Db :=
      { imports := db.imports ++ [⟨bid, filename, file_hash, source_type⟩],
        transactions := db.transactions, nextId := db.nextId + 1 }
    let res := runRows bid (extract content) db1 [] 0 0
    (post res.1, ⟨bid, res.2.1, res.2.2⟩)

/-- Two consecutive calls of the same import entry point on the same bytes. -/
def importTwice (extract : List ℕ → List (Option RowData)) (post : Db → Db)
    (filename source_type : String) (db : Db) (content : List ℕ) :
    (Db × ImportOutcome) × (Db × ImportOutcome) :=
  let first := importEntry extract post filename source_type db content
  (first, importEntry extract post filename source_type first.1 content)

/-! ## Auxiliary definitions used by the theorems -/

/-- The canonical fingerprint string as the spec words it:
`"{date}|{raw_description.strip()}|{amount:.4f}"`. -/
def canonicalFingerprintString (posted_date description_raw : String) (amount : ℚ) : String :=
  posted_date ++ "|" ++ pyStrip description_raw ++ "|" ++ format4 amount

/-- The spec's two-rule example, sorted by `(priority DESC, id ASC)`:
category 1 is Shopping, category 2 is Subscriptions. -/
def amazonRules : List Rule :=
  [Rule.mk 11 "amazon prime" "contains" 2 80 true,
   Rule.mk 10 "amazon" "contains" 1 50 true]

/-- A database in which the canonicalization pass changes nothing: one
transaction whose canonical merchant is already its merchant, no aliases. -/
def c6Db : MDb := ⟨[], [⟨1, some "x", some "x"⟩]⟩

/-- A concrete one-good-row-one-bad-row extractor for the re-import witness. -/
def w1Extract : List ℕ → List (Option RowData) :=
  fun _ => [some ⟨"01/15/2026", "STARBUCKS #123", -(45/10), "USD", some "Starbucks"⟩, none]

/-- The empty database. -/
def emptyDb : Db := ⟨[], [], 0⟩

/-! # Theorems -/

/-- Grounding of the SHA-256 embedding: FIPS 180-4 test vector for the empty
message. -/
theorem sha256Hex_empty_vector :
    sha256Hex [] = "e3b0c44298fc1c149afbf4c8996fb92427ae41e4649b934ca495991b7852b855" := by
  decide

/-- Grounding of the SHA-256 embedding: FIPS 180-4 test vector for `"abc"`. -/
theorem sha256Hex_abc_vector :
    sha256Hex (strBytes "abc") =
      "ba7816bf8f01cfea414140de5dae2223b00361a396177a9cb410ff61f20015ad" := by
  decide

/-- C5: `to_cents` is round-half-up on the decimal value: every integer cent
value round-trips through division by 100, and ties round away from zero
(`to_cents 0.005 = 1`, `to_cents (-0.005) = -1`). -/
theorem toCents_roundtrip :
    (∀ c : ℤ, to_cents ((c : ℚ) / 100) = c) ∧
    to_cents (1/200 : ℚ) = 1 ∧ to_cents (-(1/200) : ℚ) = -1 := by
  refine ⟨fun c => ?_, by decide, by decide⟩
  have hmul : (c : ℚ) / 100 * 100 = (c : ℚ) := by field_simp
  have hhalf : ⌊(1/2 : ℚ)⌋ = 0 := by decide
  unfold to_cents roundHalfUp
  rw [hmul]
  by_cases hc : (0 : ℚ) ≤ (c : ℚ)
  · rw [if_pos hc, Int.floor_int_add, hhalf, add_zero]
  · rw [if_neg hc]
    have h2 : -(c : ℚ) = ((-c : ℤ) : ℚ) := by push_cast; ring
    rw [h2, Int.floor_int_add, hhalf, add_zero, neg_neg]

/-- C2 counterexample: the split-amount laws as stated fail on negative
cells, and the function also raises on inputs that are unparseable rather
than zero-equivalent.  `parse_split_amount "-5" ""` is `-5`, not
`-parse_amount "-5" = 5`; and `("abc", "def")` raises although neither cell
is zero-equivalent. -/
theorem parseSplitAmount_claim_fails :
    parse_split_amount "-5" "" = some (-5) ∧
    (parse_amount "-5").map (fun x => -x) = some 5 ∧
    parse_split_amount "abc" "def" = none ∧
    "abc" ∉ ZERO_SET ∧ "def" ∉ ZERO_SET := by
  refine ⟨by decide, by decide, by decide, by decide, by decide⟩

/-- C2 (amended): the split-amount laws hold with the parsed amounts taken
in absolute value — debit-only gives `-|parse_amount d|`, credit-only gives
`|parse_amount c|`, both-present gives `|parse_amount c| - |parse_amount d|`
— and the function raises exactly when each side is zero-equivalent or
unparseable. -/
theorem parseSplitAmount_laws (d c : String) :
    (pyStrip d ∉ ZERO_SET → ∀ x : ℚ,
      parse_amount (pyStrip d) = some x → parse_split_amount d "" = some (-|x|)) ∧
    (pyStrip c ∉ ZERO_SET → ∀ x : ℚ,
      parse_amount (pyStrip c) = some x → parse_split_amount "" c = some |x|) ∧
    (pyStrip d ∉ ZERO_SET → pyStrip c ∉ ZERO_SET →
      ∀ x y : ℚ, parse_amount (pyStrip d) = some x → parse_amount (pyStrip c) = some y →
      parse_split_amount d c = some (|y| - |x|)) ∧
    (parse_split_amount d c = none ↔
      ((pyStrip d ∈ ZERO_SET ∨ parse_amount (pyStrip d) = none) ∧
       (pyStrip c ∈ ZERO_SET ∨ parse_amount (pyStrip c) = none))) := by
  have hz : pyStrip "" ∈ ZERO_SET := by decide
  refine ⟨fun hd x hx => by simp [parse_split_amount, hx, hd, hz],
          fun hc x hx => by simp [parse_split_amount, hx, hc, hz],
          fun hd hc x y hx hy => by simp [parse_split_amount, hx, hy, hd, hc], ?_⟩
  by_cases hzd : pyStrip d ∈ ZERO_SET <;> by_cases hzc : pyStrip c ∈ ZERO_SET <;>
    cases hpd : parse_amount (pyStrip d) <;> cases hpc : parse_amount (pyStrip c) <;>
      simp [parse_split_amount, hzd, hzc, hpd, hpc]

/-- Witness for `parseSplitAmount_laws` at `d = "5"`, `c = "7"`. -/
theorem parseSplitAmount_laws_witness :
    pyStrip "5" ∉ ZERO_SET ∧ pyStrip "7" ∉ ZERO_SET ∧
    parse_split_amount "5" "7" = some (|(7 : ℚ)| - |(5 : ℚ)|) :=
  ⟨by decide, by decide,
    (parseSplitAmount_laws "5" "7").2.2.1 (by decide) (by decide) 5 7 (by decide) (by decide)⟩

/-- C10: when exactly one side is non-zero-equivalent and parses, the parsed
side alone is returned (negated absolute value for the debit side, absolute
value for the credit side) — an unparseable non-zero cell is silently
treated as absent — and `parse_split_amount` raises exactly when both sides
are zero-equivalent or unparseable. -/
theorem parseSplitAmount_oneSided (d c : String) :
    (pyStrip d ∉ ZERO_SET → ∀ x : ℚ,
      parse_amount (pyStrip d) = some x →
      (pyStrip c ∈ ZERO_SET ∨ parse_amount (pyStrip c) = none) →
      parse_split_amount d c = some (-|x|)) ∧
    (pyStrip c ∉ ZERO_SET → ∀ y : ℚ,
      parse_amount (pyStrip c) = some y →
      (pyStrip d ∈ ZERO_SET ∨ parse_amount (pyStrip d) = none) →
      parse_split_amount d c = some |y|) ∧
    (parse_split_amount d c = none ↔
      ((pyStrip d ∈ ZERO_SET ∨ parse_amount (pyStrip d) = none) ∧
       (pyStrip c ∈ ZERO_SET ∨ parse_amount (pyStrip c) = none))) := by
  refine ⟨fun hd x hx habs => ?_, fun hc y hy habs => ?_,
    (parseSplitAmount_laws d c).2.2.2⟩
  · rcases habs with h | h <;> simp [parse_split_amount, hd, hx, h]
  · rcases habs with h | h <;> simp [parse_split_amount, hc, hy, h]

/-- Witness for `parseSplitAmount_oneSided` at `d = "5"`, `c = "abc"` (the
credit cell is non-zero-equivalent but unparseable and is treated as
absent). -/
theorem parseSplitAmount_oneSided_witness :
    pyStrip "5" ∉ ZERO_SET ∧ parse_amount (pyStrip "5") = some 5 ∧
    parse_amount (pyStrip "abc") = none ∧ parse_split_amount "5" "abc" = some (-|(5 : ℚ)|) :=
  ⟨by decide, by decide, by decide,
    (parseSplitAmount_oneSided "5" "abc").1 (by decide) 5 (by decide) (Or.inr (by decide))⟩

/-- C3: `compute_fingerprint` is the SHA-256 hex digest of the canonical
string `"{date}|{raw_description.strip()}|{amount:.4f}"` (so it depends on
the raw description only through `strip`, and not on
`normalize_description`), and `compute_file_hash` is the SHA-256 hex digest
of the raw bytes.  Determinism is inherent: both are plain functions of
their arguments.  The concrete digest conjunct was checked against
`hashlib.sha256` itself. -/
theorem computeFingerprint_canonical :
    (∀ (d desc : String) (amt : ℚ),
      compute_fingerprint d desc amt = sha256Hex (strBytes (canonicalFingerprintString d desc amt))) ∧
    (∀ (d desc₁ desc₂ : String) (amt : ℚ), pyStrip desc₁ = pyStrip desc₂ →
      compute_fingerprint d desc₁ amt = compute_fingerprint d desc₂ amt) ∧
    (∀ data : List ℕ, compute_file_hash data = sha256Hex data) ∧
    compute_fingerprint "2026-01-15" "  STARBUCKS #123  " (-(45/10)) =
      "ca886b1f29490382d89396d98be1d107fae32006113a1157fee2db0eece17389" := by
  refine ⟨fun d desc amt => rfl, fun d d1 d2 amt h => ?_, fun data => rfl, by decide⟩
  unfold compute_fingerprint
  rw [h]

/-- Witness for `computeFingerprint_canonical`: padding the description with
whitespace does not change the fingerprint. -/
theorem computeFingerprint_canonical_witness :
    pyStrip " STARBUCKS #123 " = pyStrip "STARBUCKS #123" ∧
    compute_fingerprint "2026-01-15" " STARBUCKS #123 " (-(45/10)) =
      compute_fingerprint "2026-01-15" "STARBUCKS #123" (-(45/10)) :=
  ⟨by decide,
    computeFingerprint_canonical.2.1 "2026-01-15" " STARBUCKS #123 " "STARBUCKS #123"
      (-(45/10)) (by decide)⟩

/-- Helper: `categorize` returns exactly the `(category_id, id)` of the
first active matching rule in list order, skipping inactive rules and rules
whose evaluation raises `re.error`. -/
theorem categorize_eq_firstMatch (rx : String → String → Option Bool) (desc : String)
    (rules : List Rule) :
    categorize rx desc rules =
      (match firstMatchRule rx desc rules with
       | some r => (some r.category_id, some r.id)
       | none => (none, none)) := by
  induction rules with
  | nil => rfl
  | cons r rest ih =>
    cases ha : r.is_active with
    | false => simp [categorize, firstMatchRule, List.find?_cons, ha, ih, firstMatchRule]
    | true =>
      cases hm : ruleMatches rx r desc with
      | none => simpa [categorize, firstMatchRule, List.find?_cons, ha, hm] using ih
      | some b =>
        cases b with
        | false => simpa [categorize, firstMatchRule, List.find?_cons, ha, hm] using ih
        | true => simp [categorize, firstMatchRule, List.find?_cons, ha, hm]

/-- C4: for a rule list sorted by `(priority DESC, id ASC)`, `categorize`
returns the `(category_id, rule_id)` of the first matching active rule and
stops there (first-match-wins); a rule whose regex is invalid is skipped
rather than raising; and on the spec's example rules, categorizing
`"amazon prime membership"` yields Subscriptions (category 2, rule 11), not
Shopping. -/
theorem categorize_first_match_wins :
    (∀ (rx : String → String → Option Bool) (rules : List Rule) (desc : String),
      rulesSortedDesc rules = true →
      categorize rx desc rules =
        (match firstMatchRule rx desc rules with
         | some r => (some r.category_id, some r.id)
         | none => (none, none))) ∧
    (∀ (rx : String → String → Option Bool) (desc : String) (r : Rule) (rest : List Rule),
      r.is_active = true → ruleMatches rx r desc = none →
      categorize rx desc (r :: rest) = categorize rx desc rest) ∧
    categorize (fun _ _ => some false) "amazon prime membership" amazonRules =
      (some 2, some 11) := by
  refine ⟨fun rx rules desc _ => categorize_eq_firstMatch rx desc rules,
          fun rx desc r rest ha hm => by simp [categorize, ha, hm], by decide⟩

/-- Witness for `categorize_first_match_wins`: the example rule list is
sorted, and an always-erroring regex oracle exercises the skip path. -/
theorem categorize_first_match_wins_witness :
    rulesSortedDesc amazonRules = true ∧
    (categorize (fun _ _ => some false) "x" amazonRules =
      (match firstMatchRule (fun _ _ => some false) "x" amazonRules with
       | some r => (some r.category_id, some r.id)
       | none => (none, none))) ∧
    (Rule.mk 3 "[" "regex" 9 1 true).is_active = true ∧
    ruleMatches (fun _ _ => none) (Rule.mk 3 "[" "regex" 9 1 true) "x" = none ∧
    categorize (fun _ _ => none) "x" [Rule.mk 3 "[" "regex" 9 1 true] =
      categorize (fun _ _ => none) "x" [] :=
  ⟨by decide,
   categorize_first_match_wins.1 (fun _ _ => some false) amazonRules "x" (by decide),
   by decide, by decide,
   categorize_first_match_wins.2.1 (fun _ _ => none) "x" (Rule.mk 3 "[" "regex" 9 1 true) []
     (by decide) (by decide)⟩

/-- C9: `extract_merchant_candidate` is a total deterministic function, it
falls back to the original trimmed input whenever the cleaning pipeline
strips the string to empty, and it satisfies the two documented examples. -/
theorem extractMerchant_contract :
    (∀ raw : String, mcPipeline (pyStrip raw) = "" →
      extract_merchant_candidate raw = pyStrip raw) ∧
    extract_merchant_candidate "STARBUCKS #12345 SAN FRANCISCO CA" = "Starbucks" ∧
    extract_merchant_candidate "SQ *LOCAL COFFEE SHOP SF CA" = "Local Coffee Shop" := by
  refine ⟨fun raw h => ?_, by decide, by decide⟩
  unfold extract_merchant_candidate
  by_cases hs : pyStrip raw = ""
  · simp [hs]
  · simp [hs, h]

/-- Witness for `extractMerchant_contract`: `"POS PMT"` is stripped to empty
by the prefix pass, so the trimmed original comes back. -/
theorem extractMerchant_contract_witness :
    mcPipeline (pyStrip "POS PMT") = "" ∧
    extract_merchant_candidate "POS PMT" = pyStrip "POS PMT" :=
  ⟨by decide, extractMerchant_contract.1 "POS PMT" (by decide)⟩

/-- C8: `parse_date` tries the fixed ordered list of 13 formats, returns the
first successful parse reformatted as `YYYY-MM-DD`, and returns the trimmed
input unchanged when no format matches (it never raises: it is a total
function).  The concrete conjuncts pin the priority order: `01/02/2026`
parses as US month-first even though the EU reading also matches. -/
theorem parseDate_contract :
    DATE_FORMATS.length = 13 ∧
    (∀ v : String, (∀ fmt ∈ DATE_FORMATS, strptimeDate fmt (pyStrip v) = none) →
      parse_date v = pyStrip v) ∧
    (∀ (v : String) (d : ℕ × ℕ × ℕ),
      DATE_FORMATS.findSome? (fun fmt => strptimeDate fmt (pyStrip v)) = some d →
      parse_date v = fmtISO d) ∧
    parse_date "01/02/2026" = "2026-01-02" ∧
    parse_date "15/01/2026" = "2026-01-15" ∧
    parse_date "  not a date " = "not a date" := by
  have hdef : ∀ v : String, parse_date v =
      (match DATE_FORMATS.findSome? (fun fmt => strptimeDate fmt (pyStrip v)) with
       | some d => fmtISO d
       | none => pyStrip v) := fun v => rfl
  refine ⟨rfl, fun v h => ?_, fun v d h => ?_, by decide, by decide, by decide⟩
  · rw [hdef, List.findSome?_eq_none_iff.mpr h]
  · rw [hdef, h]

/-- Witness for `parseDate_contract`: no format parses `"x"`, and the first
format wins on `"01/02/2026"`. -/
theorem parseDate_contract_witness :
    (∀ fmt ∈ DATE_FORMATS, strptimeDate fmt (pyStrip "x") = none) ∧
    parse_date "x" = pyStrip "x" ∧
    DATE_FORMATS.findSome? (fun fmt => strptimeDate fmt (pyStrip "01/02/2026")) =
      some (2026, 1, 2) ∧
    parse_date "01/02/2026" = fmtISO (2026, 1, 2) :=
  ⟨by decide, parseDate_contract.2.1 "x" (by decide), by decide,
   parseDate_contract.2.2.1 "01/02/2026" (2026, 1, 2) (by decide)⟩

/-- C7: whenever any stripped line matches the year-end sentinel
`"Date Description Location Amount"`, the text parser dispatches to the
year-end-summary parser, every parsed amount is stored negated (it starts
with `-`), and the spec's concrete example yields amount `-12.50`. -/
theorem yearEnd_detection :
    (∀ (all_lines : List String) (pages : ℕ),
      (all_lines.map pyStrip).any (fun l => yeHeaderB l.data) = true →
      (parseTextLines all_lines pages =
        (if parseYearEndSummary all_lines = [] then
          ExtractResult.needsManualMapping pages "no_transactions_found"
         else
          ExtractResult.preview ["Date", "Description", "Amount"]
            (parseYearEndSummary all_lines) pages) ∧
       ∀ t ∈ parseYearEndSummary all_lines, t.amount.data.head? = some '-')) ∧
    parseTextLines
        ["Date Description Location Amount",
         "01/15/24 STARBUCKS #123 SAN FRANCISCO, CA 12.50"] 0 =
      ExtractResult.preview ["Date", "Description", "Amount"]
        [TxRow.mk "01/15/24" "STARBUCKS #123 SAN FRANCISCO, CA" "-12.50"] 0 := by
  refine ⟨fun all_lines pages h => ⟨?_, ?_⟩, by decide⟩
  · simp only [parseTextLines, h, if_true]
  · intro t ht
    unfold parseYearEndSummary at ht
    rw [List.mem_filterMap] at ht
    obtain ⟨raw, _, hf⟩ := ht
    by_cases hb : pyStrip raw = ""
    · simp [hb] at hf
    · simp only [hb, if_neg, if_false] at hf
      rcases hm : yeDateMatch (pyStrip raw).data with _ | ⟨dt, desc, amt⟩ <;> rw [hm] at hf
      · simp at hf
      · simp only [Option.some.injEq] at hf
        subst hf
        rfl

/-- Witness for `yearEnd_detection` at the spec's two-line example. -/
theorem yearEnd_detection_witness :
    ((["Date Description Location Amount",
       "01/15/24 STARBUCKS #123 SAN FRANCISCO, CA 12.50"].map pyStrip).any
        (fun l => yeHeaderB l.data) = true) ∧
    (parseTextLines
        ["Date Description Location Amount",
         "01/15/24 STARBUCKS #123 SAN FRANCISCO, CA 12.50"] 0 =
      (if parseYearEndSummary
            ["Date Description Location Amount",
             "01/15/24 STARBUCKS #123 SAN FRANCISCO, CA 12.50"] = [] then
        ExtractResult.needsManualMapping 0 "no_transactions_found"
       else
        ExtractResult.preview ["Date", "Description", "Amount"]
          (parseYearEndSummary
            ["Date Description Location Amount",
             "01/15/24 STARBUCKS #123 SAN FRANCISCO, CA 12.50"]) 0) ∧
     ∀ t ∈ parseYearEndSummary
          ["Date Description Location Amount",
           "01/15/24 STARBUCKS #123 SAN FRANCISCO, CA 12.50"],
        t.amount.data.head? = some '-') :=
  ⟨by decide,
   yearEnd_detection.1
     ["Date Description Location Amount",
      "01/15/24 STARBUCKS #123 SAN FRANCISCO, CA 12.50"] 0 (by decide)⟩

/-- C6 counterexample: on a state where no row changes (the only
transaction already carries its canonical merchant and the alias table is
empty), the import-batch-scoped pass still commits: the claim that each
entry point commits only if at least one row actually changed is false for
`apply_canonical_to_import`, which calls `db.commit()` unconditionally. -/
theorem applyCanonical_commits_unchanged :
    (apply_canonical_to_import c6Db 1).1 = c6Db ∧
    (apply_canonical_to_import c6Db 1).2 = true := by
  refine ⟨by decide, rfl⟩

/-- C6 (amended): both entry points assign
`map.get(merchant.lower().strip(), merchant)` (and `None` for rows without
a merchant); the full-table rebuild commits exactly when at least one row
changed and leaves the state untouched when none did, but the
import-batch-scoped pass always commits. -/
theorem canonicalizer_contract :
    (∀ (db : MDb) (import_id : ℤ),
      (apply_canonical_to_import db import_id).2 = true ∧
      (apply_canonical_to_import db import_id).1.aliases = db.aliases ∧
      (apply_canonical_to_import db import_id).1.txns =
        db.txns.map (fun tx =>
          if tx.import_id == import_id then
            { tx with merchant_canonical := newCanonical (buildAliasMap db) tx }
          else tx)) ∧
    (∀ db : MDb,
      ((rebuild_canonical_all db).2.1 = true ↔
        ∃ tx ∈ db.txns, tx.merchant_canonical ≠ newCanonical (buildAliasMap db) tx) ∧
      (rebuild_canonical_all db).1.txns =
        db.txns.map (fun tx =>
          if tx.merchant_canonical != newCanonical (buildAliasMap db) tx then
            { tx with merchant_canonical := newCanonical (buildAliasMap db) tx }
          else tx) ∧
      ((∀ tx ∈ db.txns, tx.merchant_canonical = newCanonical (buildAliasMap db) tx) →
        (rebuild_canonical_all db).1 = db)) := by
  refine ⟨fun db iid => ⟨rfl, rfl, rfl⟩, fun db => ⟨?_, rfl, fun hall => ?_⟩⟩
  · show decide (0 < ((db.txns.filter _).length)) = true ↔ _
    rw [decide_eq_true_iff, ← List.countP_eq_length_filter, List.countP_pos_iff]
    constructor
    · rintro ⟨tx, htx, hp⟩
      exact ⟨tx, htx, bne_iff_ne.mp hp⟩
    · rintro ⟨tx, htx, hp⟩
      exact ⟨tx, htx, bne_iff_ne.mpr hp⟩
  · show ({ db with txns := _ } : MDb) = db
    have hmap : db.txns.map (fun tx =>
        if tx.merchant_canonical != newCanonical (buildAliasMap db) tx then
          { tx with merchant_canonical := newCanonical (buildAliasMap db) tx }
        else tx) = db.txns := by
      have := List.map_congr_left (l := db.txns)
        (f := fun tx =>
          if tx.merchant_canonical != newCanonical (buildAliasMap db) tx then
            { tx with merchant_canonical := newCanonical (buildAliasMap db) tx }
          else tx)
        (g := id) (fun tx htx => by simp [hall tx htx])
      simpa using this
    rw [hmap]

/-- Witness for `canonicalizer_contract`: on `c6Db` nothing changes and the
rebuild leaves the state untouched. -/
theorem canonicalizer_contract_witness :
    (∀ tx ∈ c6Db.txns, tx.merchant_canonical = newCanonical (buildAliasMap c6Db) tx) ∧
    (rebuild_canonical_all c6Db).1 = c6Db :=
  ⟨by decide, (canonicalizer_contract.2 c6Db).2.2 (by decide)⟩

/-- Helper: one `_insert_transaction` call leaves imports and the id
counter alone and appends either one transaction carrying the batch id or
nothing. -/
theorem insertTransaction_spec (db : Db) (seen : List String) (bid : ℕ) (r : RowData) :
    (insertTransaction db seen bid r).2.1.imports = db.imports ∧
    (insertTransaction db seen bid r).2.1.nextId = db.nextId ∧
    ∃ new : List TxRec, (∀ t ∈ new, t.import_id = bid) ∧
      (insertTransaction db seen bid r).2.1.transactions = db.transactions ++ new ∧
      new.length = (if (insertTransaction db seen bid r).1 then 1 else 0) := by
  unfold insertTransaction
  by_cases h1 : compute_fingerprint r.posted_date r.description_raw r.amount ∈ seen
  · refine ⟨by simp [h1], by simp [h1], [], by simp, by simp [h1], by simp [h1]⟩
  · by_cases h2 : ∃ x ∈ db.transactions,
      x.fingerprint_hash = compute_fingerprint r.posted_date r.description_raw r.amount
    · refine ⟨by simp [h1, h2], by simp [h1, h2], [], by simp, by simp [h1, h2], by simp [h1, h2]⟩
    · refine ⟨by simp [h1, h2], by simp [h1, h2],
        [TxRec.mk bid r.posted_date r.description_raw
          (normalize_description r.description_raw) (to_cents r.amount) r.currency
          r.merchant (compute_fingerprint r.posted_date r.description_raw r.amount)],
        by simp, by simp [h1, h2], by simp [h1, h2]⟩

/-- Helper: the shared row loop leaves imports and the id counter alone,
appends exactly `inserted` transactions, and stamps every one with the
batch id. -/
theorem runRows_spec (bid : ℕ) (rows : List (Option RowData)) :
    ∀ (db : Db) (seen : List String) (ins skp : ℕ),
      (runRows bid rows db seen ins skp).1.imports = db.imports ∧
      (runRows bid rows db seen ins skp).1.nextId = db.nextId ∧
      ∃ new : List TxRec, (∀ t ∈ new, t.import_id = bid) ∧
        (runRows bid rows db seen ins skp).1.transactions = db.transactions ++ new ∧
        new.length + ins = (runRows bid rows db seen ins skp).2.1 := by
  induction rows with
  | nil =>
    intro db seen ins skp
    exact ⟨rfl, rfl, [], by simp, by simp [runRows], by simp [runRows]⟩
  | cons hd tl ih =>
    intro db seen ins skp
    cases hd with
    | none => simpa [runRows] using ih db seen ins (skp + 1)
    | some r =>
      obtain ⟨hi1, hn1, new1, hbid1, htr1, hlen1⟩ := insertTransaction_spec db seen bid r
      by_cases hins : (insertTransaction db seen bid r).1 = true
      · obtain ⟨hi2, hn2, new2, hbid2, htr2, hlen2⟩ :=
          ih (insertTransaction db seen bid r).2.1 (insertTransaction db seen bid r).2.2
            (ins + 1) skp
        rw [hins, if_pos rfl] at hlen1
        refine ⟨?_, ?_, new1 ++ new2, ?_, ?_, ?_⟩
        · rw [show runRows bid (some r :: tl) db seen ins skp =
            runRows bid tl (insertTransaction db seen bid r).2.1
              (insertTransaction db seen bid r).2.2 (ins + 1) skp by simp [runRows, hins]]
          rw [hi2, hi1]
        · rw [show runRows bid (some r :: tl) db seen ins skp =
            runRows bid tl (insertTransaction db seen bid r).2.1
              (insertTransaction db seen bid r).2.2 (ins + 1) skp by simp [runRows, hins]]
          rw [hn2, hn1]
        · intro t ht
          rcases List.mem_append.mp ht with h | h
          · exact hbid1 t h
          · exact hbid2 t h
        · rw [show runRows bid (some r :: tl) db seen ins skp =
            runRows bid tl (insertTransaction db seen bid r).2.1
              (insertTransaction db seen bid r).2.2 (ins + 1) skp by simp [runRows, hins]]
          rw [htr2, htr1, List.append_assoc]
        · rw [show runRows bid (some r :: tl) db seen ins skp =
            runRows bid tl (insertTransaction db seen bid r).2.1
              (insertTransaction db seen bid r).2.2 (ins + 1) skp by simp [runRows, hins]]
          rw [← hlen2]
          simp [List.length_append, hlen1]
          omega
      · obtain ⟨hi2, hn2, new2, hbid2, htr2, hlen2⟩ :=
          ih (insertTransaction db seen bid r).2.1 (insertTransaction db seen bid r).2.2
            ins (skp + 1)
        rw [if_neg hins] at hlen1
        have hnew1 : new1 = [] := List.length_eq_zero.mp hlen1
        subst hnew1
        rw [List.append_nil] at htr1
        refine ⟨?_, ?_, new2, hbid2, ?_, ?_⟩
        · rw [show runRows bid (some r :: tl) db seen ins skp =
            runRows bid tl (insertTransaction db seen bid r).2.1
              (insertTransaction db seen bid r).2.2 ins (skp + 1) by simp [runRows, hins]]
          rw [hi2, hi1]
        · rw [show runRows bid (some r :: tl) db seen ins skp =
            runRows bid tl (insertTransaction db seen bid r).2.1
              (insertTransaction db seen bid r).2.2 ins (skp + 1) by simp [runRows, hins]]
          rw [hn2, hn1]
        · rw [show runRows bid (some r :: tl) db seen ins skp =
            runRows bid tl (insertTransaction db seen bid r).2.1
              (insertTransaction db seen bid r).2.2 ins (skp + 1) by simp [runRows, hins]]
          rw [htr2, htr1]
        · rw [show runRows bid (some r :: tl) db seen ins skp =
            runRows bid tl (insertTransaction db seen bid r).2.1
              (insertTransaction db seen bid r).2.2 ins (skp + 1) by simp [runRows, hins]]
          exact hlen2

/-- C1: calling any import entry point a second time with the same bytes
returns `inserted = 0` and a skipped count equal to the number of rows the
first call persisted (the spec's "existing row count"), and leaves the
state exactly as the first call left it — no new transactions.  The
hypotheses say that the starting state does not already contain the file's
hash, that its transactions do not use the about-to-be-allocated batch id,
and that post-processing (categorization and canonicalization) preserves
the import table and each transaction's batch membership — which the two
best-effort passes do. -/
theorem reimport_idempotent (extract : List ℕ → List (Option RowData)) (post : Db → Db)
    (filename source_type : String) (st : Db) (content : List ℕ)
    (hpost_imp : ∀ s, (post s).imports = s.imports)
    (hpost_tx : ∀ s, (post s).transactions.map (fun t => t.import_id) =
      s.transactions.map (fun t => t.import_id))
    (hfresh : ∀ b ∈ st.imports, b.file_hash ≠ compute_file_hash content)
    (hid : ∀ t ∈ st.transactions, t.import_id ≠ st.nextId) :
    (importTwice extract post filename source_type st content).2.2.inserted = 0 ∧
    (importTwice extract post filename source_type st content).2.2.skipped =
      (importTwice extract post filename source_type st content).1.2.inserted ∧
    (importTwice extract post filename source_type st content).2.1 =
      (importTwice extract post filename source_type st content).1.1 := by
  have hfind1 : st.imports.find? (fun b => b.file_hash == compute_file_hash content) = none :=
    List.find?_eq_none.mpr (fun b hb => by simp [hfresh b hb])
  set fh := compute_file_hash content with hfh
  set bid := st.nextId with hbid
  set db1 : Db :=
    { imports := st.imports ++ [⟨bid, filename, fh, source_type⟩],
      transactions := st.transactions, nextId := st.nextId + 1 } with hdb1
  obtain ⟨hri, hrn, new, hnewbid, hnewtr, hnewlen⟩ :=
    runRows_spec bid (extract content) db1 [] 0 0
  set res := runRows bid (extract content) db1 [] 0 0 with hres
  have hfirst : importEntry extract post filename source_type st content =
      (post res.1, ⟨bid, res.2.1, res.2.2⟩) := by
    simp only [importEntry, ← hfh, hfind1, hdb1, ← hbid, ← hres]
  have himp1 : (post res.1).imports = st.imports ++ [⟨bid, filename, fh, source_type⟩] := by
    rw [hpost_imp, hri]
  have hfind2 : (post res.1).imports.find? (fun b => b.file_hash == fh) =
      some ⟨bid, filename, fh, source_type⟩ := by
    rw [himp1, List.find?_append, hfind1]
    simp [List.find?]
  have hcount : ((post res.1).transactions.filter (fun t => t.import_id == bid)).length =
      res.2.1 := by
    rw [← List.countP_eq_length_filter]
    have h1 : List.countP (fun t => t.import_id == bid) (post res.1).transactions =
        List.countP (fun i => i == bid) ((post res.1).transactions.map (fun t => t.import_id)) := by
      rw [List.countP_map]
      rfl
    have h2 : List.countP (fun i => i == bid) (res.1.transactions.map (fun t => t.import_id)) =
        List.countP (fun t => t.import_id == bid) res.1.transactions := by
      rw [List.countP_map]
      rfl
    rw [h1, hpost_tx, h2, hnewtr]
    have hz : List.countP (fun t => t.import_id == bid) db1.transactions = 0 := by
      rw [List.countP_eq_zero]
      intro t ht
      simp [hid t ht]
    have ha : List.countP (fun t => t.import_id == bid) new = new.length := by
      rw [List.countP_eq_length]
      intro t ht
      simp [hnewbid t ht]
    rw [List.countP_append, hz, ha]
    omega
  have hsecond : importEntry extract post filename source_type (post res.1) content =
      ((post res.1), ⟨bid, 0, res.2.1⟩) := by
    simp only [importEntry, ← hfh, hfind2, hcount]
  have hTwice : importTwice extract post filename source_type st content =
      ((post res.1, ⟨bid, res.2.1, res.2.2⟩), (post res.1, ⟨bid, 0, res.2.1⟩)) := by
    simp only [importTwice, hfirst]
    rw [hsecond]
  rw [hTwice]
  exact ⟨rfl, rfl, rfl⟩

/-- Witness for `reimport_idempotent`: a fresh empty database, an extractor
yielding one good row and one skipped row, identity post-processing. -/
theorem reimport_idempotent_witness :
    (∀ b ∈ emptyDb.imports, b.file_hash ≠ compute_file_hash [97, 98]) ∧
    (∀ t ∈ emptyDb.transactions, t.import_id ≠ emptyDb.nextId) ∧
    ((importTwice w1Extract id "bank.csv" "generic" emptyDb [97, 98]).2.2.inserted = 0 ∧
     (importTwice w1Extract id "bank.csv" "generic" emptyDb [97, 98]).2.2.skipped =
       (importTwice w1Extract id "bank.csv" "generic" emptyDb [97, 98]).1.2.inserted ∧
     (importTwice w1Extract id "bank.csv" "generic" emptyDb [97, 98]).2.1 =
       (importTwice w1Extract id "bank.csv" "generic" emptyDb [97, 98]).1.1) :=
  ⟨by simp [emptyDb], by simp [emptyDb],
   reimport_idempotent w1Extract id "bank.csv" "generic" emptyDb [97, 98]
     (fun s => rfl) (fun s => rfl) (by simp [emptyDb]) (by simp [emptyDb])⟩

end Digitalsov
